import Mathlib

/-!
# Verification of the BotMailRoom agent demo server (`src/python/server.py`)

This file gives a shallow embedding, in Lean 4, of the control logic of the
email-triggered conversational agent in `src/python/server.py`:

* the configuration object `Settings`,
* the tool schema construction (`tools`), the Exa web-search executor
  (`exa_search`), and the system prompt,
* the per-thread conversation store (`chats` sqlite table) including the
  column-level semantics of the two SQL statements the program executes,
* the tool-calling response loop `handle_model_call`,
* the email entry point `handle_email` and the webhook endpoint
  `receive_email`.

External services are modelled as parameters of an `Env` record:
the LLM completion endpoint is an oracle `script : Nat → ModelMessage`
(giving the assistant message returned by the n-th completion call), the
BotMailRoom SDK's `execute_tool` is a function field `execBotTool`, and the
Exa SDK's `search_and_contents(...).results` (already passed through
Python's `str`) is a function field `exaResults`.  JSON (de)serialization
of the chat thread (`json.dumps` / `json.loads`) is modelled as the
identity on the structured data, and `json.loads(tool_call.function.arguments)`
is modelled by storing tool-call arguments as an already-parsed
string-valued association list.  Python exceptions are modelled with
`Except`, using the `PyErr` error type.
-/

set_option maxRecDepth 10000

deriving instance DecidableEq for Except

namespace AgentServer

/-- Python exceptions that the orchestration code can raise:
`ValueError` (unknown tool, uninitialized Exa client),
`sqlite3.OperationalError` (bad SQL), `KeyError` (missing dict key /
missing request header). -/
inductive PyErr where
  | valueError (msg : String)
  | operationalError (msg : String)
  | keyError (key : String)
deriving DecidableEq, Repr

/-- The `Settings` pydantic model of `server.py` (field for field, with the
source's defaults; `max_response_cycles` is an `int` used only as a
non-negative bound, modelled as `Nat`). -/
structure Settings where
  botmailroom_webhook_secret : Option String := none
  botmailroom_api_key : String
  openai_api_key : String
  exa_api_key : Option String := none
  max_response_cycles : Nat := 10
  database_url : String := "sqlite+aiosqlite:///./sql_app.db"
deriving DecidableEq, Repr

/-- Python truthiness of an `Optional[str]`: `None` and `""` are falsy.
This is the test `if settings.exa_api_key` / `if exa_client`. -/
def pyTruthyStr : Option String → Bool
  | none => false
  | some s => !(s == "")

/-- Python's `s.startswith(pre)`: the characters of `pre` are an initial
segment of the characters of `s`. -/
def startswith (s pre : String) : Bool :=
  pre.data.isPrefixOf s.data

/-- One entry of `message.tool_calls`: `tool_call.id`,
`tool_call.function.name`, and `json.loads(tool_call.function.arguments)`
modelled as a parsed string-valued JSON object (association list). -/
structure ToolCall where
  id : String
  name : String
  arguments : List (String × String)
deriving DecidableEq, Repr

/-- The assistant message `output.choices[0].message` returned by one call
to the completion endpoint.  A Python `tool_calls` of `None` and of `[]`
are both falsy and both modelled as `[]`. -/
structure ModelMessage where
  content : Option String := none
  tool_calls : List ToolCall := []
deriving DecidableEq, Repr

/-- One entry of the `chat_thread` list of message dicts. -/
inductive Msg where
  | system (content : String)
  | user (content : String)
  | assistant (message : ModelMessage)
  | tool (content : String) (name : String) (tool_call_id : String)
deriving DecidableEq, Repr

/-- One row of the `chats` table: `id VARCHAR PRIMARY KEY`,
`chat_thread JSON` (the JSON coding of the thread is modelled as the
structured data itself). -/
structure ChatsRow where
  id : String
  chat_thread : List Msg
deriving DecidableEq, Repr

/-- The `chats` table contents. -/
abbrev Db := List ChatsRow

/-- The environment: the configuration plus the two external SDK calls the
response loop makes.  `exaResults q` models
`[str(result) for result in exa.search_and_contents(query=q, type="auto", highlights=True).results]`,
and `execBotTool name args` models
`botmailroom_client.execute_tool(name, args, enforce_str_output=True)`. -/
structure Env where
  settings : Settings
  exaResults : String → List String
  execBotTool : String → List (String × String) → String

/-- `exa_client = Exa(api_key=settings.exa_api_key) if settings.exa_api_key else None`. -/
def exa_client (env : Env) : Option (String → List String) :=
  if pyTruthyStr env.settings.exa_api_key then some env.exaResults else none

/-- A tool schema entry offered to the model (`tool["function"]["name"]`
and description; the JSON-schema parameters do not influence control
flow and are omitted). -/
structure ToolSchema where
  name : String
  description : String := ""
deriving DecidableEq, Repr

/-- Modelled from the spec: the output of the email provider SDK call
`botmailroom_client.get_tools(tools_to_include=["botmailroom_send_email"])`.
The SDK itself is not part of this repository; per the spec the send-email
tool "delegates to provider SDK", so the returned schema list consists of
the requested send-email tool. -/
def botmailroom_get_tools : List ToolSchema :=
  [{ name := "botmailroom_send_email" }]

/-- The module-level `tools` list: the provider tools, plus the
`web_search` schema appended when `exa_client` is initialized. -/
def tools (env : Env) : List ToolSchema :=
  botmailroom_get_tools ++
    (if (exa_client env).isSome then
      [{ name := "web_search",
         description := "Perform a search query on the web, and retrieve the most relevant URLs/web data." }]
     else [])

/-- `valid_tool_names = ", ".join([tool["function"]["name"] for tool in tools])`. -/
def valid_tool_names (env : Env) : String :=
  String.intercalate ", " ((tools env).map (fun t => t.name))

/-- The module-level f-string `system_prompt` (leading and trailing
newlines of the triple-quoted string included). -/
def system_prompt (env : Env) : String :=
  "\n- Respond to the user's instructions carefully\n- The user is only able to respond to emails, so if you have a message to send, use the `botmailroom_send_email` tool.\n- Email content should be formatted as email compliant html.\n- When sending emails, prefer responding to an existing email thread over starting a new one.\n- Only use one tool at a time\n- Always respond with a tool call - the only valid tool names are "
    ++ valid_tool_names env ++ "\n"

/-- `def exa_search(query)`: raises `ValueError("Exa client not initialized")`
when `exa_client` is `None`, otherwise returns
`"\n\n".join([str(result) for result in response.results])`. -/
def exa_search (env : Env) (query : String) : Except PyErr String :=
  match exa_client env with
  | none => .error (.valueError "Exa client not initialized")
  | some client => .ok (String.intercalate "\n\n" (client query))

/-! ## The `chats` table and the two SQL statements of the program -/

/-- The columns of the `chats` table, created by
`CREATE TABLE IF NOT EXISTS chats (id VARCHAR PRIMARY KEY, chat_thread JSON)`. -/
def chats_columns : List String := ["id", "chat_thread"]

/-- Whether a row satisfies `WHERE <col> = <v>` for a string parameter `v`:
only the `id` column is a string column, the JSON `chat_thread` column
never equals a string key. -/
def matchesWhere (r : ChatsRow) (col : String) (v : String) : Bool :=
  if col == "id" then r.id == v else false

/-- Semantics of `UPDATE chats SET <setCol> = ? WHERE <whereCol> = ?`:
sqlite raises `OperationalError("no such column: ...")` when a referenced
column does not exist in the table, and otherwise updates every matching
row in place (the only SET column the program uses is the JSON
`chat_thread` column, whose new value is a thread). -/
def sqlUpdateChats (table : Db) (setCol : String) (setVal : List Msg)
    (whereCol : String) (whereVal : String) : Except PyErr Db :=
  if whereCol ∈ chats_columns then
    if setCol ∈ chats_columns then
      .ok (table.map fun r =>
        if matchesWhere r whereCol whereVal then { r with chat_thread := setVal } else r)
    else .error (.operationalError ("no such column: " ++ setCol))
  else .error (.operationalError ("no such column: " ++ whereCol))

/-- Semantics of `SELECT * FROM chats WHERE <whereCol> = ?` followed by
`fetchone()`: the first matching row, if any. -/
def sqlSelectChats (table : Db) (whereCol : String) (whereVal : String) :
    Except PyErr (Option ChatsRow) :=
  if whereCol ∈ chats_columns then
    .ok (table.find? fun r => matchesWhere r whereCol whereVal)
  else .error (.operationalError ("no such column: " ++ whereCol))

/-! ## The response loop `handle_model_call` -/

/-- Observable steps of the server, used to state ordering properties:
sending the HTTP response, one completion-endpoint invocation, one tool
execution, and one execution of the `UPDATE chats` statement. -/
inductive Event where
  | respond (status : Nat)
  | modelCall
  | toolExec (name : String)
  | dbUpdate
deriving DecidableEq, Repr

/-- Dispatch of one requested tool call (the `if/elif/else` on
`tool_call.function.name` inside the loop).  Returns the string tool
output together with the value of the `end` flag set by the branch
(`True` exactly for the `botmailroom_` branch). -/
def execute_tool_call (env : Env) (tc : ToolCall) : Except PyErr (String × Bool) :=
  if startswith tc.name "botmailroom_" then
    .ok (env.execBotTool tc.name tc.arguments, true)
  else if startswith tc.name "web_search" then
    match tc.arguments.lookup "query" with
    | none => .error (.keyError "query")
    | some q =>
        match exa_search env q with
        | .error e => .error e
        | .ok s => .ok (s, false)
  else
    .error (.valueError ("Unknown tool: " ++ tc.name))

/-- The `for tool_call in output.choices[0].message.tool_calls` loop:
executes each tool call in order, appending a tool-role message
`{"role": "tool", "content": tool_output, "name": ..., "tool_call_id": ...}`
after each execution and or-accumulating the `end` flag; a raised
exception aborts the iteration (messages appended so far are kept). -/
def processToolCalls (env : Env) (tcs : List ToolCall) (thread : List Msg)
    (evs : List Event) (endFlag : Bool) :
    List Msg × List Event × Except PyErr Bool :=
  match tcs with
  | [] => (thread, evs, .ok endFlag)
  | tc :: rest =>
      match execute_tool_call env tc with
      | .error e => (thread, evs, .error e)
      | .ok (out, isEnd) =>
          processToolCalls env rest (thread ++ [Msg.tool out tc.name tc.id])
            (evs ++ [Event.toolExec tc.name]) (endFlag || isEnd)
termination_by structural tcs

/-- Result of the trailing part of one `while` iteration of
`handle_model_call` (everything after the completion call returns). -/
inductive CycleOutcome where
  | next
  | terminal
  | raised (e : PyErr)
deriving DecidableEq, Repr

/-- State after one `while` iteration: the chat thread, the database,
the events of the iteration (tool executions and `UPDATE` executions),
and how the iteration ended. -/
structure CycleResult where
  thread : List Msg
  db : Option Db
  events : List Event
  outcome : CycleOutcome
deriving DecidableEq, Repr

/-- The `if db:` persistence step at the bottom of the loop body:
`await db.execute("UPDATE chats SET chat_thread = ? WHERE chat_id = ?", (json.dumps(chat_thread), chat_id))`.
When the connection is absent nothing happens; when present the statement
is executed (one `Event.dbUpdate`), and an `OperationalError` from it
propagates. -/
def persistStep (chat_id : String) (thread : List Msg) (evs : List Event)
    (dbS : Option Db) : CycleResult :=
  match dbS with
  | none => ⟨thread, none, evs, .next⟩
  | some table =>
      match sqlUpdateChats table "chat_thread" thread "chat_id" chat_id with
      | .error e => ⟨thread, some table, evs ++ [Event.dbUpdate], .raised e⟩
      | .ok table2 => ⟨thread, some table2, evs ++ [Event.dbUpdate], .next⟩

/-- One `while` iteration of `handle_model_call` after the completion
call returned `output`: if the message has tool calls, append the
assistant message dump and execute the tool calls in order; otherwise
append the corrective user message.  Then `if end: break` (outcome
`terminal`, before the persistence step), else persist and continue. -/
def runCycle (env : Env) (chat_id : String) (output : ModelMessage)
    (thread : List Msg) (dbS : Option Db) : CycleResult :=
  match output.tool_calls with
  | [] =>
      persistStep chat_id
        (thread ++ [Msg.user "Please respond with a tool call"]) [] dbS
  | _ :: _ =>
      let thread1 := thread ++ [Msg.assistant output]
      match processToolCalls env output.tool_calls thread1 [] false with
      | (thread2, evs, .error e) => ⟨thread2, dbS, evs, .raised e⟩
      | (thread2, evs, .ok endFlag) =>
          if endFlag then ⟨thread2, dbS, evs, .terminal⟩
          else persistStep chat_id thread2 evs dbS

/-- How a whole run of `handle_model_call` ended: the `while` condition
became false (`exhausted`), `break` was reached (`terminal`), or an
exception propagated out (`raised`). -/
inductive Outcome where
  | exhausted
  | terminal
  | raised (e : PyErr)
deriving DecidableEq, Repr

/-- Result of a run of `handle_model_call`: final thread, final database,
number of completion-endpoint invocations performed, how the run ended,
the argument of each completion call (the message history and the tool
schema passed), and the ordered event trace. -/
structure RunResult where
  thread : List Msg
  db : Option Db
  calls : Nat
  outcome : Outcome
  callLog : List (List Msg × List ToolSchema)
  events : List Event
deriving DecidableEq, Repr

/-- The `while cycle_count <= settings.max_response_cycles` loop, by
fuel: `fuel` is the number of remaining iterations the condition still
admits, and `calls` the number of completion calls already made (the
oracle index).  Each iteration invokes the completion endpoint exactly
once with the current `chat_thread` and the module-level `tools`. -/
def loopAux (env : Env) (script : Nat → ModelMessage) (chat_id : String)
    (fuel : Nat) (calls : Nat) (thread : List Msg) (dbS : Option Db)
    (log : List (List Msg × List ToolSchema)) (evs : List Event) : RunResult :=
  match fuel with
  | 0 => ⟨thread, dbS, calls, .exhausted, log, evs⟩
  | fuel' + 1 =>
      match (runCycle env chat_id (script calls) thread dbS).outcome with
      | .next =>
          loopAux env script chat_id fuel' (calls + 1)
            (runCycle env chat_id (script calls) thread dbS).thread
            (runCycle env chat_id (script calls) thread dbS).db
            (log ++ [(thread, tools env)])
            (evs ++ [Event.modelCall] ++
              (runCycle env chat_id (script calls) thread dbS).events)
      | .terminal =>
          ⟨(runCycle env chat_id (script calls) thread dbS).thread,
           (runCycle env chat_id (script calls) thread dbS).db,
           calls + 1, .terminal, log ++ [(thread, tools env)],
           evs ++ [Event.modelCall] ++
             (runCycle env chat_id (script calls) thread dbS).events⟩
      | .raised e =>
          ⟨(runCycle env chat_id (script calls) thread dbS).thread,
           (runCycle env chat_id (script calls) thread dbS).db,
           calls + 1, .raised e, log ++ [(thread, tools env)],
           evs ++ [Event.modelCall] ++
             (runCycle env chat_id (script calls) thread dbS).events⟩
termination_by structural fuel

/-- `async def handle_model_call(chat_id, chat_thread)`: starting from
`cycle_count = 0`, the condition `cycle_count <= settings.max_response_cycles`
admits at most `max_response_cycles + 1` iterations (cycle_count takes the
values `0, 1, ..., max_response_cycles` at the loop test). -/
def handle_model_call (env : Env) (script : Nat → ModelMessage)
    (chat_id : String) (chat_thread : List Msg) (dbS : Option Db) : RunResult :=
  loopAux env script chat_id (env.settings.max_response_cycles + 1)
    0 chat_thread dbS [] []

/-! ## `handle_email` and the webhook endpoint -/

/-- One entry of `email_payload.previous_emails` (only the `id` field is
read by the program). -/
structure PreviousEmail where
  id : String
deriving DecidableEq, Repr

/-- The fields of the `EmailPayload` webhook payload that the program
reads (`from_address.address` flattened to a string). -/
structure EmailPayload where
  id : String
  from_address : String
  previous_emails : Option (List PreviousEmail) := none
  thread_prompt : String
deriving DecidableEq, Repr

/-- The chat-id choice of `handle_email`:
`previous_emails[0].id` when `previous_emails is not None and len(previous_emails) > 0`,
else `email_payload.id`. -/
def chatIdOf (payload : EmailPayload) : String :=
  match payload.previous_emails with
  | some (e :: _) => e.id
  | _ => payload.id

/-- The initial `chat_thread` of `handle_email`: starts as
`[{"role": "system", "content": system_prompt}]`; when the connection is
present, `SELECT * FROM chats WHERE id = ?` is run and a found row's
`chat_thread` column (`result[1]`, JSON-decoded) replaces it. -/
def initialThread (env : Env) (dbS : Option Db) (chat_id : String) :
    Except PyErr (List Msg) :=
  match dbS with
  | none => .ok [Msg.system (system_prompt env)]
  | some table =>
      match sqlSelectChats table "id" chat_id with
      | .error e => .error e
      | .ok none => .ok [Msg.system (system_prompt env)]
      | .ok (some row) => .ok row.chat_thread

/-- `async def handle_email(email_payload)`: choose the chat id, load or
initialize the thread, append the incoming
`{"role": "user", "content": email_payload.thread_prompt}` message, and
run the response loop. -/
def handle_email (env : Env) (script : Nat → ModelMessage) (dbS : Option Db)
    (payload : EmailPayload) : Except PyErr RunResult :=
  match initialThread env dbS (chatIdOf payload) with
  | .error e => .error e
  | .ok t0 =>
      .ok (handle_model_call env script (chatIdOf payload)
            (t0 ++ [Msg.user payload.thread_prompt]) dbS)

/-- The two external parsers used by `_validate_and_parse_email`:
`EmailPayload.model_validate_json(body)` and
`verify_webhook_signature(signature, body, secret)` (both from SDKs,
either returning a payload or raising). -/
structure WebhookEnv where
  parse : String → Except PyErr EmailPayload
  verify : String → String → String → Except PyErr EmailPayload

/-- `async def _validate_and_parse_email(request)`: with no configured
webhook secret the body is parsed directly (after a logged warning);
otherwise the `X-Signature` header is read (`KeyError` when absent) and
the signature-verifying parser of the provider SDK is used. -/
def _validate_and_parse_email (wenv : WebhookEnv) (secret : Option String)
    (sigHeader : Option String) (body : String) : Except PyErr EmailPayload :=
  match secret with
  | none => wenv.parse body
  | some sec =>
      match sigHeader with
      | none => .error (.keyError "X-Signature")
      | some sig => wenv.verify sig body sec

/-- The value returned by the `/receive-email` endpoint: the HTTP status
and the background tasks queued on the response (each one a pending
`handle_email(payload)`). -/
structure WebResponse where
  status : Nat
  background : List EmailPayload
deriving DecidableEq, Repr

/-- `@app.post("/receive-email", status_code=204)`: parse/validate the
payload, queue `handle_email(email_payload)` as a background task, and
return `Response(status_code=204)`. -/
def receive_email (wenv : WebhookEnv) (secret : Option String)
    (sigHeader : Option String) (body : String) : Except PyErr WebResponse :=
  match _validate_and_parse_email wenv secret sigHeader body with
  | .error e => .error e
  | .ok payload => .ok { status := 204, background := [payload] }

/-- Modelled from the spec: the FastAPI/Starlette background-task
semantics used by the endpoint ("enqueues a background task, returns
immediately") — the framework, which is not part of this repository,
sends the HTTP response first and only then runs the queued tasks.  The
resulting event trace of one successfully parsed webhook delivery:
the `respond` event followed by the events of the queued
`handle_email` runs.  (Framework error responses for a failed parse are
out of scope; they produce no background work.) -/
def serverTrace (env : Env) (script : Nat → ModelMessage) (dbS : Option Db)
    (wenv : WebhookEnv) (secret : Option String) (sigHeader : Option String)
    (body : String) : List Event :=
  match receive_email wenv secret sigHeader body with
  | .error _ => []
  | .ok resp =>
      Event.respond resp.status ::
        (resp.background.map fun p =>
          match handle_email env script dbS p with
          | .error _ => []
          | .ok r => r.events).flatten

/-- The tool-role messages produced by executing a list of tool calls in
order, when every execution succeeds (specification-side companion of
`processToolCalls`, used to state where in the thread each result
lands). -/
def toolResultMsgs (env : Env) (tcs : List ToolCall) : List Msg :=
  match tcs with
  | [] => []
  | tc :: rest =>
      match execute_tool_call env tc with
      | .error _ => []
      | .ok (out, _) => Msg.tool out tc.name tc.id :: toolResultMsgs env rest
termination_by structural tcs

/-! ## Concrete fixtures (used to instantiate witnesses and counterexamples) -/

/-- A configuration with `max_response_cycles = 0` and no Exa key. -/
def settingsMax0 : Settings :=
  { botmailroom_api_key := "bmr-key", openai_api_key := "oai-key",
    max_response_cycles := 0 }

/-- A configuration with the default `max_response_cycles = 10` and no Exa key. -/
def settingsMax10 : Settings :=
  { botmailroom_api_key := "bmr-key", openai_api_key := "oai-key" }

/-- A configuration with an Exa key and `max_response_cycles = 0`. -/
def settingsExa : Settings :=
  { botmailroom_api_key := "bmr-key", openai_api_key := "oai-key",
    exa_api_key := some "exa-key", max_response_cycles := 0 }

/-- Stub external services: Exa returns one result per query, the
provider SDK's tool execution returns `"Email sent"`. -/
def envMax0 : Env :=
  { settings := settingsMax0,
    exaResults := fun q => ["result for " ++ q],
    execBotTool := fun _ _ => "Email sent" }

/-- Same external behavior under the default cycle limit. -/
def envMax10 : Env :=
  { settings := settingsMax10,
    exaResults := fun q => ["result for " ++ q],
    execBotTool := fun _ _ => "Email sent" }

/-- Same external behavior with the Exa client initialized. -/
def envExa : Env :=
  { settings := settingsExa,
    exaResults := fun q => ["result for " ++ q],
    execBotTool := fun _ _ => "Email sent" }

/-- A send-email tool call. -/
def sendEmailCall : ToolCall :=
  { id := "call-1", name := "botmailroom_send_email",
    arguments := [("to", "user@example.com")] }

/-- A tool call with a name no dispatch branch recognizes. -/
def unknownCall : ToolCall :=
  { id := "call-9", name := "frobnicate", arguments := [] }

/-- A first web-search tool call. -/
def webCall1 : ToolCall :=
  { id := "t1", name := "web_search", arguments := [("query", "q1")] }

/-- A second web-search tool call. -/
def webCall2 : ToolCall :=
  { id := "t2", name := "web_search", arguments := [("query", "q2")] }

/-- A model that always answers with the send-email tool call. -/
def sendScript : Nat → ModelMessage :=
  fun _ => { tool_calls := [sendEmailCall] }

/-- A model that always answers with an unrecognized tool call. -/
def unknownScript : Nat → ModelMessage :=
  fun _ => { tool_calls := [unknownCall] }

/-- A model that always answers with plain content and no tool calls. -/
def chatScript : Nat → ModelMessage :=
  fun _ => { content := some "Hello!" }

/-- An assistant message requesting two web searches at once. -/
def twoWebMsg : ModelMessage := { tool_calls := [webCall1, webCall2] }

/-- A model that always requests two web searches at once. -/
def twoWebScript : Nat → ModelMessage := fun _ => twoWebMsg

/-- A payload with no previous emails. -/
def payloadFresh : EmailPayload :=
  { id := "email-1", from_address := "alice@example.com",
    previous_emails := none, thread_prompt := "Please look this up." }

/-- A payload replying inside an existing thread. -/
def payloadReply : EmailPayload :=
  { id := "email-2", from_address := "alice@example.com",
    previous_emails := some [{ id := "email-1" }],
    thread_prompt := "Thanks, one more thing." }

/-- A webhook environment whose parsers always succeed with `payloadFresh`. -/
def wenvOk : WebhookEnv :=
  { parse := fun _ => .ok payloadFresh,
    verify := fun _ _ _ => .ok payloadFresh }

/-- A one-row `chats` table holding a stored history for thread `email-1`. -/
def tableA : Db := [{ id := "email-1", chat_thread := [Msg.user "old"] }]

/-! ## Helper lemmas about the tool-call loop -/

theorem processToolCalls_thread_extends (env : Env) (tcs : List ToolCall) :
    ∀ thread evs endFlag,
      ∃ ext, (processToolCalls env tcs thread evs endFlag).1 = thread ++ ext := by
  induction tcs with
  | nil => intro thread evs endFlag; exact ⟨[], by simp [processToolCalls]⟩
  | cons tc rest ih =>
      intro thread evs endFlag
      cases h : execute_tool_call env tc with
      | error e => exact ⟨[], by simp [processToolCalls, h]⟩
      | ok p =>
          obtain ⟨out, isEnd⟩ := p
          obtain ⟨ext, hext⟩ :=
            ih (thread ++ [Msg.tool out tc.name tc.id])
              (evs ++ [Event.toolExec tc.name]) (endFlag || isEnd)
          refine ⟨Msg.tool out tc.name tc.id :: ext, ?_⟩
          simp [processToolCalls, h, hext]

theorem processToolCalls_events_extends (env : Env) (tcs : List ToolCall) :
    ∀ thread evs endFlag,
      ∃ ext, (processToolCalls env tcs thread evs endFlag).2.1 = evs ++ ext ∧
        ∀ e ∈ ext, ∃ n, e = Event.toolExec n := by
  induction tcs with
  | nil =>
      intro thread evs endFlag
      exact ⟨[], by simp [processToolCalls], by simp⟩
  | cons tc rest ih =>
      intro thread evs endFlag
      cases h : execute_tool_call env tc with
      | error e => exact ⟨[], by simp [processToolCalls, h], by simp⟩
      | ok p =>
          obtain ⟨out, isEnd⟩ := p
          obtain ⟨ext, hext, hall⟩ :=
            ih (thread ++ [Msg.tool out tc.name tc.id])
              (evs ++ [Event.toolExec tc.name]) (endFlag || isEnd)
          refine ⟨Event.toolExec tc.name :: ext, ?_, ?_⟩
          · simp [processToolCalls, h, hext]
          · intro e he
            rcases List.mem_cons.mp he with he | he
            · exact ⟨tc.name, he⟩
            · exact hall e he

theorem execute_tool_call_end (env : Env) (tc : ToolCall) (out : String)
    (h : execute_tool_call env tc = .ok (out, true)) :
    startswith tc.name "botmailroom_" = true := by
  by_cases hb : startswith tc.name "botmailroom_" = true
  · exact hb
  · exfalso
    simp only [execute_tool_call, hb] at h
    by_cases hw : startswith tc.name "web_search" = true
    · simp only [hw, if_true] at h
      cases hq : tc.arguments.lookup "query" with
      | none => simp [hq] at h
      | some q =>
          cases hs : exa_search env q with
          | error e => simp [hq, hs] at h
          | ok s => simp [hq, hs] at h
    · simp [hw] at h

theorem processToolCalls_end_mem (env : Env) (tcs : List ToolCall) :
    ∀ thread evs endFlag,
      (processToolCalls env tcs thread evs endFlag).2.2 = .ok true →
      endFlag = true ∨
        ∃ tc, tc ∈ tcs ∧ startswith tc.name "botmailroom_" = true ∧
          ∃ s, Msg.tool s tc.name tc.id ∈ (processToolCalls env tcs thread evs endFlag).1 := by
  induction tcs with
  | nil =>
      intro thread evs endFlag h
      simp only [processToolCalls] at h
      left
      exact (Except.ok.injEq _ _).mp h
  | cons tc rest ih =>
      intro thread evs endFlag h
      cases hx : execute_tool_call env tc with
      | error e => simp [processToolCalls, hx] at h
      | ok p =>
          obtain ⟨out, isEnd⟩ := p
          simp only [processToolCalls, hx] at h ⊢
          rcases ih (thread ++ [Msg.tool out tc.name tc.id])
              (evs ++ [Event.toolExec tc.name]) (endFlag || isEnd) h with hend | ⟨tc', hmem, hpre, s, hms⟩
          · rcases Bool.or_eq_true_iff.mp hend with hF | hE
            · exact Or.inl hF
            · subst hE
              right
              refine ⟨tc, by simp, execute_tool_call_end env tc out hx, out, ?_⟩
              obtain ⟨ext, hext⟩ :=
                processToolCalls_thread_extends env rest
                  (thread ++ [Msg.tool out tc.name tc.id])
                  (evs ++ [Event.toolExec tc.name]) (endFlag || true)
              rw [hext]
              simp
          · exact Or.inr ⟨tc', by simp [hmem], hpre, s, hms⟩

theorem processToolCalls_ok_thread (env : Env) (tcs : List ToolCall) :
    ∀ thread evs endFlag b,
      (processToolCalls env tcs thread evs endFlag).2.2 = .ok b →
      (processToolCalls env tcs thread evs endFlag).1 = thread ++ toolResultMsgs env tcs := by
  induction tcs with
  | nil => intro thread evs endFlag b _; simp [processToolCalls, toolResultMsgs]
  | cons tc rest ih =>
      intro thread evs endFlag b h
      cases hx : execute_tool_call env tc with
      | error e => simp [processToolCalls, hx] at h
      | ok p =>
          obtain ⟨out, isEnd⟩ := p
          simp only [processToolCalls, hx] at h ⊢
          rw [ih (thread ++ [Msg.tool out tc.name tc.id])
              (evs ++ [Event.toolExec tc.name]) (endFlag || isEnd) b h]
          simp [toolResultMsgs, hx]

theorem processToolCalls_res_indep (env : Env) (tcs : List ToolCall) :
    ∀ thread evs endFlag thread' evs',
      (processToolCalls env tcs thread evs endFlag).2.2
        = (processToolCalls env tcs thread' evs' endFlag).2.2 := by
  induction tcs with
  | nil => intro thread evs endFlag thread' evs'; rfl
  | cons tc rest ih =>
      intro thread evs endFlag thread' evs'
      cases hx : execute_tool_call env tc with
      | error e => simp [processToolCalls, hx]
      | ok p =>
          obtain ⟨out, isEnd⟩ := p
          simp only [processToolCalls, hx]
          exact ih _ _ _ _ _

theorem processToolCalls_flag_true (env : Env) (tcs : List ToolCall) :
    ∀ thread evs b,
      (processToolCalls env tcs thread evs true).2.2 = .ok b → b = true := by
  induction tcs with
  | nil =>
      intro thread evs b h
      exact (Except.ok.inj h).symm
  | cons tc rest ih =>
      intro thread evs b h
      cases hx : execute_tool_call env tc with
      | error e => simp [processToolCalls, hx] at h
      | ok p =>
          obtain ⟨out, isEnd⟩ := p
          simp only [processToolCalls, hx, Bool.true_or] at h
          exact ih _ _ b h

theorem processToolCalls_flag_of_mem (env : Env) (tcs : List ToolCall) :
    ∀ thread evs endFlag b tc, tc ∈ tcs →
      startswith tc.name "botmailroom_" = true →
      (processToolCalls env tcs thread evs endFlag).2.2 = .ok b → b = true := by
  induction tcs with
  | nil =>
      intro thread evs endFlag b tc htc _ _
      exact absurd htc (List.not_mem_nil tc)
  | cons tc' rest ih =>
      intro thread evs endFlag b tc htc hpre h
      cases hx : execute_tool_call env tc' with
      | error e => simp [processToolCalls, hx] at h
      | ok p =>
          obtain ⟨out, isEnd⟩ := p
          simp only [processToolCalls, hx] at h
          rcases List.mem_cons.mp htc with heq | hmem
          · subst heq
            have hbot : execute_tool_call env tc
                = .ok (env.execBotTool tc.name tc.arguments, true) := by
              simp [execute_tool_call, hpre]
            have hisEnd : isEnd = true :=
              ((Prod.mk.inj (Except.ok.inj (hbot.symm.trans hx))).2).symm
            rw [hisEnd, Bool.or_true] at h
            exact processToolCalls_flag_true env rest _ _ b h
          · exact ih _ _ _ b tc hmem hpre h

theorem sqlUpdateChats_chat_id (table : Db) (v : List Msg) (k : String) :
    sqlUpdateChats table "chat_thread" v "chat_id" k =
      .error (.operationalError "no such column: chat_id") := by
  simp [sqlUpdateChats, chats_columns]

theorem persistStep_thread (chat_id : String) (thread : List Msg)
    (evs : List Event) (dbS : Option Db) :
    (persistStep chat_id thread evs dbS).thread = thread := by
  cases dbS with
  | none => rfl
  | some table => simp [persistStep, sqlUpdateChats_chat_id]

theorem persistStep_db (chat_id : String) (thread : List Msg)
    (evs : List Event) (dbS : Option Db) :
    (persistStep chat_id thread evs dbS).db = dbS := by
  cases dbS with
  | none => rfl
  | some table => simp [persistStep, sqlUpdateChats_chat_id]

theorem persistStep_not_terminal (chat_id : String) (thread : List Msg)
    (evs : List Event) (dbS : Option Db) :
    (persistStep chat_id thread evs dbS).outcome ≠ .terminal := by
  cases dbS with
  | none => simp [persistStep]
  | some table => simp [persistStep, sqlUpdateChats_chat_id]

theorem runCycle_thread_extends (env : Env) (chat_id : String)
    (output : ModelMessage) (thread : List Msg) (dbS : Option Db) :
    ∃ ext, (runCycle env chat_id output thread dbS).thread = thread ++ ext := by
  cases hc : output.tool_calls with
  | nil =>
      exact ⟨[Msg.user "Please respond with a tool call"],
        by simp [runCycle, hc, persistStep_thread]⟩
  | cons tc rest =>
      rcases hp : processToolCalls env (tc :: rest)
          (thread ++ [Msg.assistant output]) [] false with ⟨th2, evs2, res⟩
      have hext := processToolCalls_thread_extends env (tc :: rest)
        (thread ++ [Msg.assistant output]) [] false
      rw [hp] at hext
      obtain ⟨ext, hext⟩ := hext
      have hth2 : th2 = thread ++ (Msg.assistant output :: ext) := by
        simpa [List.append_assoc] using hext
      refine ⟨Msg.assistant output :: ext, ?_⟩
      cases res with
      | error e => simp [runCycle, hc, hp, hth2]
      | ok b =>
          cases b with
          | true => simp [runCycle, hc, hp, hth2]
          | false => simp [runCycle, hc, hp, persistStep_thread, hth2]

theorem runCycle_db (env : Env) (chat_id : String) (output : ModelMessage)
    (thread : List Msg) (dbS : Option Db) :
    (runCycle env chat_id output thread dbS).db = dbS := by
  cases hc : output.tool_calls with
  | nil => simp [runCycle, hc, persistStep_db]
  | cons tc rest =>
      rcases hp : processToolCalls env (tc :: rest)
          (thread ++ [Msg.assistant output]) [] false with ⟨th2, evs2, res⟩
      cases res with
      | error e => simp [runCycle, hc, hp]
      | ok b =>
          cases b with
          | true => simp [runCycle, hc, hp]
          | false => simp [runCycle, hc, hp, persistStep_db]

theorem runCycle_terminal (env : Env) (chat_id : String)
    (output : ModelMessage) (thread : List Msg) (dbS : Option Db)
    (h : (runCycle env chat_id output thread dbS).outcome = .terminal) :
    (runCycle env chat_id output thread dbS).db = dbS ∧
    Event.dbUpdate ∉ (runCycle env chat_id output thread dbS).events ∧
    ∃ tc, tc ∈ output.tool_calls ∧ startswith tc.name "botmailroom_" = true ∧
      ∃ s, Msg.tool s tc.name tc.id ∈ (runCycle env chat_id output thread dbS).thread := by
  cases hc : output.tool_calls with
  | nil =>
      rw [runCycle] at h
      simp only [hc] at h
      exact absurd h (persistStep_not_terminal _ _ _ _)
  | cons tc rest =>
      rcases hp : processToolCalls env (tc :: rest)
          (thread ++ [Msg.assistant output]) [] false with ⟨th2, evs2, res⟩
      cases res with
      | error e => simp [runCycle, hc, hp] at h
      | ok b =>
          cases b with
          | false =>
              rw [runCycle] at h
              simp only [hc, hp] at h
              simp only [Bool.false_eq_true, if_false] at h
              exact absurd h (persistStep_not_terminal _ _ _ _)
          | true =>
              have hmem := processToolCalls_end_mem env (tc :: rest)
                (thread ++ [Msg.assistant output]) [] false (by rw [hp])
              rw [hp] at hmem
              have hevs := processToolCalls_events_extends env (tc :: rest)
                (thread ++ [Msg.assistant output]) [] false
              rw [hp] at hevs
              obtain ⟨extE, hextE, hallE⟩ := hevs
              rcases hmem with hF | ⟨tc', hmem', hpre', s, hms⟩
              · exact absurd hF (by simp)
              · refine ⟨?_, ?_, tc', by simpa [hc] using hmem', hpre', s, ?_⟩
                · simp [runCycle, hc, hp]
                · simp only [runCycle, hc, hp]
                  intro hcontra
                  simp only [List.nil_append] at hextE
                  rw [show evs2 = extE from hextE] at hcontra
                  obtain ⟨n, hn⟩ := hallE Event.dbUpdate hcontra
                  exact Event.noConfusion hn
                · simpa [runCycle, hc, hp] using hms

theorem runCycle_terminal_of (env : Env) (chat_id : String)
    (output : ModelMessage) (thread : List Msg) (dbS : Option Db)
    (hne : output.tool_calls ≠ [])
    (hflag : (processToolCalls env output.tool_calls
        (thread ++ [Msg.assistant output]) [] false).2.2 = .ok true) :
    (runCycle env chat_id output thread dbS).outcome = .terminal := by
  cases hc : output.tool_calls with
  | nil => exact absurd hc hne
  | cons tc rest =>
      rw [hc] at hflag
      rcases hp : processToolCalls env (tc :: rest)
          (thread ++ [Msg.assistant output]) [] false with ⟨th2, evs2, res⟩
      rw [hp] at hflag
      have hres : res = .ok true := hflag
      subst hres
      simp [runCycle, hc, hp]

/-! ## Helper lemmas about the whole loop -/

theorem loopAux_calls_le (env : Env) (script : Nat → ModelMessage)
    (chat_id : String) (fuel : Nat) :
    ∀ calls thread dbS log evs,
      (loopAux env script chat_id fuel calls thread dbS log evs).calls ≤ calls + fuel := by
  induction fuel with
  | zero => intro calls thread dbS log evs; simp [loopAux]
  | succ fuel' ih =>
      intro calls thread dbS log evs
      cases ho : (runCycle env chat_id (script calls) thread dbS).outcome with
      | next =>
          rw [loopAux]
          simp only [ho]
          calc (loopAux env script chat_id fuel' (calls + 1) _ _ _ _).calls
              ≤ (calls + 1) + fuel' := ih (calls + 1) _ _ _ _
            _ = calls + (fuel' + 1) := by omega
      | terminal => rw [loopAux]; simp only [ho]; omega
      | raised e => rw [loopAux]; simp only [ho]; omega

theorem loopAux_exhausted_calls (env : Env) (script : Nat → ModelMessage)
    (chat_id : String) (fuel : Nat) :
    ∀ calls thread dbS log evs,
      (loopAux env script chat_id fuel calls thread dbS log evs).outcome = .exhausted →
      (loopAux env script chat_id fuel calls thread dbS log evs).calls = calls + fuel := by
  induction fuel with
  | zero => intro calls thread dbS log evs _; simp [loopAux]
  | succ fuel' ih =>
      intro calls thread dbS log evs h
      cases ho : (runCycle env chat_id (script calls) thread dbS).outcome with
      | next =>
          rw [loopAux] at h ⊢
          simp only [ho] at h ⊢
          rw [ih (calls + 1) _ _ _ _ h]
          omega
      | terminal => rw [loopAux] at h; simp [ho] at h
      | raised e => rw [loopAux] at h; simp [ho] at h

theorem loopAux_db (env : Env) (script : Nat → ModelMessage)
    (chat_id : String) (fuel : Nat) :
    ∀ calls thread dbS log evs,
      (loopAux env script chat_id fuel calls thread dbS log evs).db = dbS := by
  induction fuel with
  | zero => intro calls thread dbS log evs; simp [loopAux]
  | succ fuel' ih =>
      intro calls thread dbS log evs
      cases ho : (runCycle env chat_id (script calls) thread dbS).outcome with
      | next =>
          rw [loopAux]
          simp only [ho]
          rw [ih (calls + 1) _ _ _ _]
          exact runCycle_db env chat_id (script calls) thread dbS
      | terminal =>
          rw [loopAux]; simp only [ho]
          exact runCycle_db env chat_id (script calls) thread dbS
      | raised e =>
          rw [loopAux]; simp only [ho]
          exact runCycle_db env chat_id (script calls) thread dbS

theorem loopAux_thread_extends (env : Env) (script : Nat → ModelMessage)
    (chat_id : String) (fuel : Nat) :
    ∀ calls thread dbS log evs,
      ∃ ext, (loopAux env script chat_id fuel calls thread dbS log evs).thread
        = thread ++ ext := by
  induction fuel with
  | zero => intro calls thread dbS log evs; exact ⟨[], by simp [loopAux]⟩
  | succ fuel' ih =>
      intro calls thread dbS log evs
      obtain ⟨ext0, hext0⟩ :=
        runCycle_thread_extends env chat_id (script calls) thread dbS
      cases ho : (runCycle env chat_id (script calls) thread dbS).outcome with
      | next =>
          obtain ⟨ext1, hext1⟩ := ih (calls + 1)
            (runCycle env chat_id (script calls) thread dbS).thread
            (runCycle env chat_id (script calls) thread dbS).db
            (log ++ [(thread, tools env)])
            (evs ++ [Event.modelCall] ++
              (runCycle env chat_id (script calls) thread dbS).events)
          refine ⟨ext0 ++ ext1, ?_⟩
          rw [loopAux]
          simp only [ho]
          rw [hext1, hext0, List.append_assoc]
      | terminal =>
          refine ⟨ext0, ?_⟩
          rw [loopAux]; simp only [ho]; exact hext0
      | raised e =>
          refine ⟨ext0, ?_⟩
          rw [loopAux]; simp only [ho]; exact hext0

theorem loopAux_log_extends (env : Env) (script : Nat → ModelMessage)
    (chat_id : String) (fuel : Nat) :
    ∀ calls thread dbS log evs,
      ∃ more, (loopAux env script chat_id fuel calls thread dbS log evs).callLog
        = log ++ more := by
  induction fuel with
  | zero => intro calls thread dbS log evs; exact ⟨[], by simp [loopAux]⟩
  | succ fuel' ih =>
      intro calls thread dbS log evs
      cases ho : (runCycle env chat_id (script calls) thread dbS).outcome with
      | next =>
          obtain ⟨more, hmore⟩ := ih (calls + 1)
            (runCycle env chat_id (script calls) thread dbS).thread
            (runCycle env chat_id (script calls) thread dbS).db
            (log ++ [(thread, tools env)])
            (evs ++ [Event.modelCall] ++
              (runCycle env chat_id (script calls) thread dbS).events)
          refine ⟨(thread, tools env) :: more, ?_⟩
          rw [loopAux]
          simp only [ho]
          rw [hmore, List.append_assoc]
          simp
      | terminal =>
          refine ⟨[(thread, tools env)], ?_⟩
          rw [loopAux]; simp only [ho]
      | raised e =>
          refine ⟨[(thread, tools env)], ?_⟩
          rw [loopAux]; simp only [ho]

theorem loopAux_log_head (env : Env) (script : Nat → ModelMessage)
    (chat_id : String) (fuel : Nat) (calls : Nat) (thread : List Msg)
    (dbS : Option Db) (evs : List Event) :
    (loopAux env script chat_id (fuel + 1) calls thread dbS [] evs).callLog.head?
      = some (thread, tools env) := by
  cases ho : (runCycle env chat_id (script calls) thread dbS).outcome with
  | next =>
      obtain ⟨more, hmore⟩ := loopAux_log_extends env script chat_id fuel (calls + 1)
        (runCycle env chat_id (script calls) thread dbS).thread
        (runCycle env chat_id (script calls) thread dbS).db
        ([] ++ [(thread, tools env)])
        (evs ++ [Event.modelCall] ++
          (runCycle env chat_id (script calls) thread dbS).events)
      rw [loopAux]
      simp only [ho]
      rw [hmore]
      simp
  | terminal => rw [loopAux]; simp [ho]
  | raised e => rw [loopAux]; simp [ho]

theorem loopAux_log_entries (env : Env) (script : Nat → ModelMessage)
    (chat_id : String) (fuel : Nat) :
    ∀ calls thread dbS log evs,
      (∀ p ∈ log, p.2 = tools env ∧ ∃ ext, p.1 ++ ext = thread) →
      ∀ p ∈ (loopAux env script chat_id fuel calls thread dbS log evs).callLog,
        p.2 = tools env ∧
        ∃ ext, p.1 ++ ext
          = (loopAux env script chat_id fuel calls thread dbS log evs).thread := by
  induction fuel with
  | zero =>
      intro calls thread dbS log evs hlog p hp
      simp only [loopAux] at hp ⊢
      exact hlog p hp
  | succ fuel' ih =>
      intro calls thread dbS log evs hlog p hp
      obtain ⟨ext0, hext0⟩ :=
        runCycle_thread_extends env chat_id (script calls) thread dbS
      have hlog2 : ∀ p ∈ log ++ [(thread, tools env)],
          p.2 = tools env ∧ ∃ ext, p.1 ++ ext
            = (runCycle env chat_id (script calls) thread dbS).thread := by
        intro q hq
        rcases List.mem_append.mp hq with hq | hq
        · obtain ⟨hq2, ext, hq1⟩ := hlog q hq
          exact ⟨hq2, ext ++ ext0, by rw [hext0, ← hq1, List.append_assoc]⟩
        · simp only [List.mem_singleton] at hq
          subst hq
          exact ⟨rfl, ext0, by rw [hext0]⟩
      cases ho : (runCycle env chat_id (script calls) thread dbS).outcome with
      | next =>
          rw [loopAux] at hp ⊢
          simp only [ho] at hp ⊢
          exact ih (calls + 1) _ _ _ _ hlog2 p hp
      | terminal =>
          rw [loopAux] at hp ⊢
          simp only [ho] at hp ⊢
          exact hlog2 p hp
      | raised e =>
          rw [loopAux] at hp ⊢
          simp only [ho] at hp ⊢
          exact hlog2 p hp

theorem loopAux_terminal_mem (env : Env) (script : Nat → ModelMessage)
    (chat_id : String) (fuel : Nat) :
    ∀ calls thread dbS log evs,
      (loopAux env script chat_id fuel calls thread dbS log evs).outcome = .terminal →
      ∃ k, calls ≤ k ∧
        (loopAux env script chat_id fuel calls thread dbS log evs).calls = k + 1 ∧
        ∃ tc, tc ∈ (script k).tool_calls ∧
          startswith tc.name "botmailroom_" = true ∧
          ∃ s, Msg.tool s tc.name tc.id
            ∈ (loopAux env script chat_id fuel calls thread dbS log evs).thread := by
  induction fuel with
  | zero => intro calls thread dbS log evs h; simp [loopAux] at h
  | succ fuel' ih =>
      intro calls thread dbS log evs h
      cases ho : (runCycle env chat_id (script calls) thread dbS).outcome with
      | next =>
          rw [loopAux] at h ⊢
          simp only [ho] at h ⊢
          obtain ⟨k, hk, hcalls, tc, hmem, hpre, s, hms⟩ := ih (calls + 1) _ _ _ _ h
          exact ⟨k, by omega, hcalls, tc, hmem, hpre, s, hms⟩
      | terminal =>
          obtain ⟨-, -, tc, hmem, hpre, s, hms⟩ :=
            runCycle_terminal env chat_id (script calls) thread dbS ho
          refine ⟨calls, le_refl _, ?_, tc, hmem, hpre, s, ?_⟩
          · rw [loopAux]; simp only [ho]
          · rw [loopAux]; simp only [ho]; exact hms
      | raised e =>
          rw [loopAux] at h
          simp [ho] at h

theorem loopAux_forces_terminal (env : Env) (script : Nat → ModelMessage)
    (chat_id : String) (fuel : Nat) :
    ∀ calls thread dbS log evs k,
      calls ≤ k →
      (script k).tool_calls ≠ [] →
      (processToolCalls env ((script k).tool_calls)
          [Msg.assistant (script k)] [] false).2.2 = .ok true →
      k + 1 ≤ (loopAux env script chat_id fuel calls thread dbS log evs).calls →
      (loopAux env script chat_id fuel calls thread dbS log evs).calls = k + 1 ∧
      (loopAux env script chat_id fuel calls thread dbS log evs).outcome = .terminal ∧
      ∃ tc, tc ∈ (script k).tool_calls ∧
        startswith tc.name "botmailroom_" = true ∧
        ∃ s, Msg.tool s tc.name tc.id
          ∈ (loopAux env script chat_id fuel calls thread dbS log evs).thread := by
  induction fuel with
  | zero =>
      intro calls thread dbS log evs k hck hne hflag hreach
      simp only [loopAux] at hreach
      omega
  | succ fuel' ih =>
      intro calls thread dbS log evs k hck hne hflag hreach
      by_cases hek : calls = k
      · subst hek
        have hterm : (runCycle env chat_id (script calls) thread dbS).outcome
            = .terminal := by
          apply runCycle_terminal_of env chat_id (script calls) thread dbS hne
          rw [processToolCalls_res_indep env ((script calls).tool_calls)
            (thread ++ [Msg.assistant (script calls)]) [] false
            [Msg.assistant (script calls)] []]
          exact hflag
        obtain ⟨-, -, tc, hmem, hpre, s, hms⟩ :=
          runCycle_terminal env chat_id (script calls) thread dbS hterm
        rw [loopAux]
        simp only [hterm]
        exact ⟨trivial, trivial, tc, hmem, hpre, s, hms⟩
      · have hlt : calls < k := by omega
        cases ho : (runCycle env chat_id (script calls) thread dbS).outcome with
        | next =>
            rw [loopAux] at hreach ⊢
            simp only [ho] at hreach ⊢
            exact ih (calls + 1) _ _ _ _ k (by omega) hne hflag hreach
        | terminal =>
            rw [loopAux] at hreach
            simp only [ho] at hreach
            omega
        | raised e =>
            rw [loopAux] at hreach
            simp only [ho] at hreach
            omega

/-! ## The claims -/

/-- C1, counterexample: with `max_response_cycles = 0` the loop still
performs one model invocation (the `while` test `cycle_count <= 0`
succeeds at `cycle_count = 0`), so the number of completion calls
exceeds the configured cycle limit. -/
theorem C1_cycle_budget_cex :
    ¬ ((handle_model_call envMax0 sendScript "chat-1" [] (some [])).calls
        ≤ envMax0.settings.max_response_cycles) := by
  decide

/-- C1, amended: for every inbound email the response loop performs at
most `max_response_cycles + 1` model invocations — the condition
`cycle_count <= settings.max_response_cycles` starts from
`cycle_count = 0`, admitting one more iteration than the limit. -/
theorem C1_cycle_budget (env : Env) (script : Nat → ModelMessage)
    (chat_id : String) (chat_thread : List Msg) (dbS : Option Db) :
    (handle_model_call env script chat_id chat_thread dbS).calls
      ≤ env.settings.max_response_cycles + 1 := by
  simp only [handle_model_call]
  simpa using loopAux_calls_le env script chat_id
    (env.settings.max_response_cycles + 1) 0 chat_thread dbS [] []

/-- C3, code bug: the persistence step runs
`UPDATE chats SET chat_thread = ? WHERE chat_id = ?`, but the `chats`
table created in `lifespan` has columns `id` and `chat_thread` only, so
the statement raises `OperationalError("no such column: chat_id")` and
leaves the store unchanged; the same update keyed on the actual key
column `id` — what the claim describes — would have stored the thread. -/
theorem C3_persistence_bug :
    (persistStep "chat-1" [Msg.user "hello"] []
        (some [{ id := "chat-1", chat_thread := [] }])).outcome
      = .raised (.operationalError "no such column: chat_id") ∧
    (persistStep "chat-1" [Msg.user "hello"] []
        (some [{ id := "chat-1", chat_thread := [] }])).db
      = some [{ id := "chat-1", chat_thread := [] }] ∧
    sqlUpdateChats [{ id := "chat-1", chat_thread := [] }]
        "chat_thread" [Msg.user "hello"] "id" "chat-1"
      = .ok [{ id := "chat-1", chat_thread := [Msg.user "hello"] }] := by
  decide

/-- C8: when a cycle ends on the terminal send-email signal, `break` is
reached before the persistence step: the cycle leaves the store exactly
as it was and executes no `UPDATE` statement; consequently a whole
terminal run leaves the store unchanged. -/
theorem C8_terminal_no_persist (env : Env) (script : Nat → ModelMessage)
    (chat_id : String) (output : ModelMessage) (thread th2 : List Msg)
    (dbS : Option Db) :
    ((runCycle env chat_id output thread dbS).outcome = .terminal →
        (runCycle env chat_id output thread dbS).db = dbS ∧
        Event.dbUpdate ∉ (runCycle env chat_id output thread dbS).events) ∧
    ((handle_model_call env script chat_id th2 dbS).outcome = .terminal →
        (handle_model_call env script chat_id th2 dbS).db = dbS) := by
  constructor
  · intro h
    obtain ⟨h1, h2, -⟩ := runCycle_terminal env chat_id output thread dbS h
    exact ⟨h1, h2⟩
  · intro _
    simp only [handle_model_call]
    exact loopAux_db env script chat_id
      (env.settings.max_response_cycles + 1) 0 th2 dbS [] []

/-- C8, witness: a concrete terminal cycle (send-email tool call) with a
connected store, at the runCycle and at the whole-run level. -/
theorem C8_terminal_no_persist_w :
    ((runCycle envMax0 "chat-1" (sendScript 0) [] (some [])).db = some [] ∧
      Event.dbUpdate ∉ (runCycle envMax0 "chat-1" (sendScript 0) [] (some [])).events) ∧
    (handle_model_call envMax0 sendScript "chat-1" [] (some [])).db = some [] :=
  ⟨(C8_terminal_no_persist envMax0 sendScript "chat-1" (sendScript 0) [] []
      (some [])).1 (by decide),
   (C8_terminal_no_persist envMax0 sendScript "chat-1" (sendScript 0) [] []
      (some [])).2 (by decide)⟩

/-- C9, code bug evaluation: on a model response with no tool calls, the
assistant content is discarded, the corrective user message
`"Please respond with a tool call"` is appended and no tool is executed
— but with the store connected the cycle then raises
`OperationalError("no such column: chat_id")` at the persistence step
instead of proceeding to the next cycle; without a store it proceeds
(`next`) as the claim says. -/
theorem C9_no_tool_call_cycle :
    runCycle envMax0 "chat-1" { content := some "Hello!", tool_calls := [] }
        [Msg.user "hello"] (some [{ id := "chat-1", chat_thread := [] }])
      = { thread := [Msg.user "hello", Msg.user "Please respond with a tool call"],
          db := some [{ id := "chat-1", chat_thread := [] }],
          events := [Event.dbUpdate],
          outcome := .raised (.operationalError "no such column: chat_id") } ∧
    runCycle envMax0 "chat-1" { content := some "Hello!", tool_calls := [] }
        [Msg.user "hello"] none
      = { thread := [Msg.user "hello", Msg.user "Please respond with a tool call"],
          db := none, events := [], outcome := .next } := by
  decide

/-- C10: the `web_search` schema is offered to the model exactly when the
Exa API key is configured (Python-truthy: present and non-empty); with no
initialized client `exa_search` raises
`ValueError("Exa client not initialized")`, and with an initialized
client it returns the results joined by blank lines and raises nothing. -/
theorem C10_web_search_tool (env : Env) :
    ((tools env).any (fun t => t.name == "web_search")
        = pyTruthyStr env.settings.exa_api_key) ∧
    (exa_client env = none →
        ∀ q, exa_search env q = .error (.valueError "Exa client not initialized")) ∧
    (∀ f, exa_client env = some f →
        ∀ q, exa_search env q = .ok (String.intercalate "\n\n" (f q))) := by
  refine ⟨?_, ?_, ?_⟩
  · cases h : pyTruthyStr env.settings.exa_api_key with
    | false => simp [tools, exa_client, h, botmailroom_get_tools]
    | true => simp [tools, exa_client, h, botmailroom_get_tools]
  · intro h q
    simp [exa_search, h]
  · intro f h q
    simp [exa_search, h]

/-- C10, witness: with no Exa key every search raises; with a configured
key the tool list contains `web_search` and every search returns the
joined results. -/
theorem C10_web_search_tool_w :
    ((tools envExa).any (fun t => t.name == "web_search")
        = pyTruthyStr envExa.settings.exa_api_key) ∧
    (∀ q, exa_search envMax0 q
        = .error (.valueError "Exa client not initialized")) ∧
    (∀ q, exa_search envExa q
        = .ok (String.intercalate "\n\n" (envExa.exaResults q))) :=
  ⟨(C10_web_search_tool envExa).1,
   fun q => (C10_web_search_tool envMax0).2.1 rfl q,
   fun q => (C10_web_search_tool envExa).2.2 envExa.exaResults rfl q⟩

/-- C4: tool dispatch branches on the string prefix of the requested
name — a `botmailroom_` name is executed by the provider SDK, a
`web_search` name by the Exa executor, any other name raises
`ValueError("Unknown tool: <name>")`, and the unknown-tool error is
raised only for names with neither recognized prefix. -/
theorem C4_tool_dispatch (env : Env) (tc : ToolCall) :
    (startswith tc.name "botmailroom_" = true →
        execute_tool_call env tc
          = .ok (env.execBotTool tc.name tc.arguments, true)) ∧
    (startswith tc.name "botmailroom_" = false →
      startswith tc.name "web_search" = true →
        execute_tool_call env tc
          = (match tc.arguments.lookup "query" with
             | none => .error (.keyError "query")
             | some q =>
                 match exa_search env q with
                 | .error e => .error e
                 | .ok s => .ok (s, false))) ∧
    (startswith tc.name "botmailroom_" = false →
      startswith tc.name "web_search" = false →
        execute_tool_call env tc
          = .error (.valueError ("Unknown tool: " ++ tc.name))) ∧
    (∀ msg, execute_tool_call env tc = .error (.valueError msg) →
        startswith msg "Unknown tool: " = true →
        startswith tc.name "botmailroom_" = false ∧
        startswith tc.name "web_search" = false) := by
  refine ⟨?_, ?_, ?_, ?_⟩
  · intro hb
    simp [execute_tool_call, hb]
  · intro hb hw
    simp [execute_tool_call, hb, hw]
  · intro hb hw
    simp [execute_tool_call, hb, hw]
  · intro msg hmsg hpre
    cases hb : startswith tc.name "botmailroom_" with
    | true => simp [execute_tool_call, hb] at hmsg
    | false =>
        cases hw : startswith tc.name "web_search" with
        | false => exact ⟨rfl, rfl⟩
        | true =>
            exfalso
            simp only [execute_tool_call, hb, hw, Bool.false_eq_true, if_false,
              if_true] at hmsg
            cases hq : tc.arguments.lookup "query" with
            | none =>
                rw [hq] at hmsg
                simp at hmsg
            | some q =>
                rw [hq] at hmsg
                cases hec : exa_client env with
                | none =>
                    simp only [exa_search, hec] at hmsg
                    simp only [Except.error.injEq, PyErr.valueError.injEq] at hmsg
                    rw [← hmsg] at hpre
                    exact absurd hpre (by decide)
                | some f =>
                    simp only [exa_search, hec] at hmsg
                    exact Except.noConfusion hmsg

/-- C4, witness: one concrete tool call per dispatch branch, and the
non-example: the unknown-tool error names an unrecognized tool. -/
theorem C4_tool_dispatch_w :
    execute_tool_call envMax0 sendEmailCall = .ok ("Email sent", true) ∧
    execute_tool_call envExa webCall1 = .ok ("result for q1", false) ∧
    execute_tool_call envMax0 unknownCall
      = .error (.valueError "Unknown tool: frobnicate") ∧
    (startswith unknownCall.name "botmailroom_" = false ∧
      startswith unknownCall.name "web_search" = false) := by
  refine ⟨?_, ?_, ?_, ?_⟩
  · exact ((C4_tool_dispatch envMax0 sendEmailCall).1 (by decide)).trans (by decide)
  · exact ((C4_tool_dispatch envExa webCall1).2.1 (by decide) (by decide)).trans
      (by decide)
  · exact ((C4_tool_dispatch envMax0 unknownCall).2.2.1 (by decide)
      (by decide)).trans (by decide)
  · exact (C4_tool_dispatch envMax0 unknownCall).2.2.2 "Unknown tool: frobnicate"
      (by decide) (by decide)

/-- C2, counterexample: a model that requests an unrecognized tool stops
the loop with a `ValueError` after a single invocation — no response ever
contained a `botmailroom_` tool call, yet the loop does not continue
until the cycle limit (10, admitting 11 invocations) is exhausted. -/
theorem C2_stop_cex :
    (handle_model_call envMax10 unknownScript "c" [] none).outcome
      = .raised (.valueError "Unknown tool: frobnicate") ∧
    (handle_model_call envMax10 unknownScript "c" [] none).calls = 1 ∧
    envMax10.settings.max_response_cycles = 10 := by
  decide

/-- C2, amended: the loop stops on the terminal signal, on cycle
exhaustion, or on a raised exception.  Forward direction: whenever the
run processes a model response (the k-th) whose tool calls all execute
without raising and one of which has a `botmailroom_` name, the loop
terminates right there — exactly k + 1 model invocations, terminal
outcome, and that tool's result appended to the thread (tool execution
does not read the history, so its success is stated against the
canonical one-message thread).  Conversely, a terminal run's last
response contained such a call whose result is in the thread; and when
no exception is raised and no terminal signal occurs, the loop performs
exactly `max_response_cycles + 1` invocations and ends by cycle
exhaustion. -/
theorem C2_stop (env : Env) (script : Nat → ModelMessage) (chat_id : String)
    (thread : List Msg) (dbS : Option Db) :
    (∀ k thread2 evs2 b,
        processToolCalls env ((script k).tool_calls)
            [Msg.assistant (script k)] [] false = (thread2, evs2, .ok b) →
        (∃ tc, tc ∈ (script k).tool_calls ∧
            startswith tc.name "botmailroom_" = true) →
        k + 1 ≤ (handle_model_call env script chat_id thread dbS).calls →
        (handle_model_call env script chat_id thread dbS).calls = k + 1 ∧
        (handle_model_call env script chat_id thread dbS).outcome = .terminal ∧
        ∃ tc, tc ∈ (script k).tool_calls ∧
          startswith tc.name "botmailroom_" = true ∧
          ∃ s, Msg.tool s tc.name tc.id
            ∈ (handle_model_call env script chat_id thread dbS).thread) ∧
    ((handle_model_call env script chat_id thread dbS).outcome = .terminal →
        ∃ k, (handle_model_call env script chat_id thread dbS).calls = k + 1 ∧
          ∃ tc, tc ∈ (script k).tool_calls ∧
            startswith tc.name "botmailroom_" = true ∧
            ∃ s, Msg.tool s tc.name tc.id
              ∈ (handle_model_call env script chat_id thread dbS).thread) ∧
    ((∀ e, (handle_model_call env script chat_id thread dbS).outcome ≠ .raised e) →
      (handle_model_call env script chat_id thread dbS).outcome ≠ .terminal →
        (handle_model_call env script chat_id thread dbS).outcome = .exhausted ∧
        (handle_model_call env script chat_id thread dbS).calls
          = env.settings.max_response_cycles + 1) := by
  refine ⟨?_, ?_, ?_⟩
  · intro k thread2 evs2 b hpc hmem hreach
    obtain ⟨tc0, htc0, hpre0⟩ := hmem
    have hne : (script k).tool_calls ≠ [] := by
      intro hemp
      rw [hemp] at htc0
      exact absurd htc0 (List.not_mem_nil tc0)
    have hok : (processToolCalls env ((script k).tool_calls)
        [Msg.assistant (script k)] [] false).2.2 = .ok b := by
      rw [hpc]
    have hb : b = true :=
      processToolCalls_flag_of_mem env ((script k).tool_calls)
        [Msg.assistant (script k)] [] false b tc0 htc0 hpre0 hok
    subst hb
    simp only [handle_model_call] at hreach ⊢
    exact loopAux_forces_terminal env script chat_id
      (env.settings.max_response_cycles + 1) 0 thread dbS [] [] k
      (Nat.zero_le k) hne hok hreach
  · intro h
    simp only [handle_model_call] at h ⊢
    obtain ⟨k, -, hcalls, tc, hmem, hpre, s, hms⟩ :=
      loopAux_terminal_mem env script chat_id
        (env.settings.max_response_cycles + 1) 0 thread dbS [] [] h
    exact ⟨k, hcalls, tc, hmem, hpre, s, hms⟩
  · intro hnr hnt
    have hout : (handle_model_call env script chat_id thread dbS).outcome
        = .exhausted := by
      cases ho : (handle_model_call env script chat_id thread dbS).outcome with
      | exhausted => rfl
      | terminal => exact absurd ho hnt
      | raised e => exact absurd ho (hnr e)
    refine ⟨hout, ?_⟩
    simp only [handle_model_call] at hout ⊢
    simpa using loopAux_exhausted_calls env script chat_id
      (env.settings.max_response_cycles + 1) 0 thread dbS [] [] hout

/-- C2, witness: under the default limit of 10 (11 admitted calls) a
successful send-email response at the first cycle forces termination
after exactly one invocation; a terminal run's last response contained
the send-email call; and an error-free chat-only run exhausts all 11
cycles. -/
theorem C2_stop_w :
    ((handle_model_call envMax10 sendScript "c" [] none).calls = 1 ∧
      (handle_model_call envMax10 sendScript "c" [] none).outcome = .terminal ∧
      ∃ tc, tc ∈ (sendScript 0).tool_calls ∧
        startswith tc.name "botmailroom_" = true ∧
        ∃ s, Msg.tool s tc.name tc.id
          ∈ (handle_model_call envMax10 sendScript "c" [] none).thread) ∧
    (∃ k, (handle_model_call envMax0 sendScript "chat-1" [] (some [])).calls
        = k + 1 ∧
      ∃ tc, tc ∈ (sendScript k).tool_calls ∧
        startswith tc.name "botmailroom_" = true ∧
        ∃ s, Msg.tool s tc.name tc.id
          ∈ (handle_model_call envMax0 sendScript "chat-1" [] (some [])).thread) ∧
    ((handle_model_call envMax10 chatScript "c" [] none).outcome = .exhausted ∧
      (handle_model_call envMax10 chatScript "c" [] none).calls
        = envMax10.settings.max_response_cycles + 1) := by
  refine ⟨?_, ?_, ?_⟩
  · exact (C2_stop envMax10 sendScript "c" [] none).1 0
      [Msg.assistant (sendScript 0),
       Msg.tool "Email sent" "botmailroom_send_email" "call-1"]
      [Event.toolExec "botmailroom_send_email"] true (by decide)
      ⟨sendEmailCall, by decide⟩ (by decide)
  · exact (C2_stop envMax0 sendScript "chat-1" [] (some [])).2.1 (by decide)
  · refine (C2_stop envMax10 chatScript "c" [] none).2.2 ?_ (by decide)
    intro e h
    have hx : (handle_model_call envMax10 chatScript "c" [] none).outcome
        = Outcome.exhausted := by decide
    rw [hx] at h
    exact Outcome.noConfusion h

/-- C5: conversation state is per-thread — the chat id is the first
previous email's id when `previous_emails` is present and non-empty and
the email's own id otherwise; with a stored row under that id the loop
continues the stored history, and otherwise it starts from a fresh
history whose first message is the system prompt. -/
theorem C5_per_thread_state (env : Env) (script : Nat → ModelMessage)
    (payload : EmailPayload) :
    (∀ e rest, payload.previous_emails = some (e :: rest) →
        chatIdOf payload = e.id) ∧
    (payload.previous_emails = none → chatIdOf payload = payload.id) ∧
    (payload.previous_emails = some [] → chatIdOf payload = payload.id) ∧
    (∀ table row,
        table.find? (fun r => matchesWhere r "id" (chatIdOf payload))
            = some row →
        handle_email env script (some table) payload
          = .ok (handle_model_call env script (chatIdOf payload)
              (row.chat_thread ++ [Msg.user payload.thread_prompt])
              (some table))) ∧
    (∀ table,
        table.find? (fun r => matchesWhere r "id" (chatIdOf payload)) = none →
        handle_email env script (some table) payload
          = .ok (handle_model_call env script (chatIdOf payload)
              ([Msg.system (system_prompt env)]
                ++ [Msg.user payload.thread_prompt]) (some table))) ∧
    (handle_email env script none payload
      = .ok (handle_model_call env script (chatIdOf payload)
          ([Msg.system (system_prompt env)]
            ++ [Msg.user payload.thread_prompt]) none)) := by
  have hcol : "id" ∈ chats_columns := by decide
  refine ⟨?_, ?_, ?_, ?_, ?_, ?_⟩
  · intro e rest h
    simp [chatIdOf, h]
  · intro h
    simp [chatIdOf, h]
  · intro h
    simp [chatIdOf, h]
  · intro table row h
    simp [handle_email, initialThread, sqlSelectChats, hcol, h]
  · intro table h
    simp [handle_email, initialThread, sqlSelectChats, hcol, h]
  · simp [handle_email, initialThread]

/-- C5, witness: a reply inside thread `email-1` with a stored row
continues the stored history; a fresh email with an empty table starts
from the system prompt. -/
theorem C5_per_thread_state_w :
    chatIdOf payloadReply = "email-1" ∧
    chatIdOf payloadFresh = payloadFresh.id ∧
    handle_email envMax0 chatScript (some tableA) payloadReply
      = .ok (handle_model_call envMax0 chatScript (chatIdOf payloadReply)
          ([Msg.user "old"] ++ [Msg.user payloadReply.thread_prompt])
          (some tableA)) ∧
    handle_email envMax0 chatScript (some []) payloadFresh
      = .ok (handle_model_call envMax0 chatScript (chatIdOf payloadFresh)
          ([Msg.system (system_prompt envMax0)]
            ++ [Msg.user payloadFresh.thread_prompt]) (some [])) := by
  refine ⟨?_, ?_, ?_, ?_⟩
  · exact (C5_per_thread_state envMax0 chatScript payloadReply).1
      { id := "email-1" } [] rfl
  · exact (C5_per_thread_state envMax0 chatScript payloadFresh).2.1 rfl
  · exact (C5_per_thread_state envMax0 chatScript payloadReply).2.2.2.1 tableA
      { id := "email-1", chat_thread := [Msg.user "old"] } (by decide)
  · exact (C5_per_thread_state envMax0 chatScript payloadFresh).2.2.2.2.1 []
      (by decide)

/-- C6, counterexample: when one model response requests two web
searches, the two tool results are appended in sequence after the single
assistant message — the second result is not immediately after the
assistant message that requested it (the first result sits between). -/
theorem C6_history_cex :
    (handle_model_call envExa twoWebScript "c" [] none).thread
      = [Msg.assistant twoWebMsg,
         Msg.tool "result for q1" "web_search" "t1",
         Msg.tool "result for q2" "web_search" "t2"] ∧
    webCall2 ∈ twoWebMsg.tool_calls ∧
    (handle_model_call envExa twoWebScript "c" [] none).thread.get? 2
      = some (Msg.tool "result for q2" "web_search" "t2") ∧
    ¬ ((handle_model_call envExa twoWebScript "c" [] none).thread.get? 1
        = some (Msg.assistant twoWebMsg)) := by
  decide

/-- C6, amended: the incoming user message is the last message of the
history passed to the first model call; every model call receives the
module-level tool schema and a history that is an initial segment of the
final accumulated history; and a response's tool results are appended in
request order directly after the assistant message (the first one
immediately after it). -/
theorem C6_history (env : Env) (script : Nat → ModelMessage)
    (dbS : Option Db) (payload : EmailPayload) (r : RunResult)
    (h : handle_email env script dbS payload = .ok r) :
    (∃ t0, initialThread env dbS (chatIdOf payload) = .ok t0 ∧
        r.callLog.head?
          = some (t0 ++ [Msg.user payload.thread_prompt], tools env)) ∧
    (∀ p ∈ r.callLog, p.2 = tools env ∧ ∃ ext, p.1 ++ ext = r.thread) ∧
    (∀ chat_id out thread dbS2 thread2 evs b,
        processToolCalls env out.tool_calls
            (thread ++ [Msg.assistant out]) [] false = (thread2, evs, .ok b) →
        out.tool_calls ≠ [] →
        (runCycle env chat_id out thread dbS2).thread
          = thread ++ Msg.assistant out :: toolResultMsgs env out.tool_calls) := by
  cases hit : initialThread env dbS (chatIdOf payload) with
  | error e =>
      rw [handle_email, hit] at h
      exact absurd h (by simp)
  | ok t0 =>
      rw [handle_email, hit] at h
      have hr : r = handle_model_call env script (chatIdOf payload)
          (t0 ++ [Msg.user payload.thread_prompt]) dbS := (Except.ok.inj h).symm
      subst hr
      refine ⟨⟨t0, rfl, ?_⟩, ?_, ?_⟩
      · simp only [handle_model_call]
        exact loopAux_log_head env script (chatIdOf payload)
          env.settings.max_response_cycles 0
          (t0 ++ [Msg.user payload.thread_prompt]) dbS []
      · intro p hp
        simp only [handle_model_call] at hp ⊢
        exact loopAux_log_entries env script (chatIdOf payload)
          (env.settings.max_response_cycles + 1) 0
          (t0 ++ [Msg.user payload.thread_prompt]) dbS [] [] (by simp) p hp
      · intro chat_id out thread dbS2 thread2 evs b hpc hne
        cases hc : out.tool_calls with
        | nil => exact absurd hc hne
        | cons tc rest =>
            rw [hc] at hpc
            have hthread := processToolCalls_ok_thread env (tc :: rest)
              (thread ++ [Msg.assistant out]) [] false b (by rw [hpc])
            rw [hpc] at hthread
            simp only at hthread
            cases b with
            | true =>
                rw [runCycle]
                simp only [hc, hpc, if_true]
                rw [hthread, List.append_assoc]
                simp
            | false =>
                rw [runCycle]
                simp only [hc, hpc, Bool.false_eq_true, if_false,
                  persistStep_thread]
                rw [hthread, List.append_assoc]
                simp

/-- C6, witness: a concrete no-store run — the first call's history ends
with the incoming user message, every call log entry is an initial
segment of the final history carrying the tool schema, and a successful
two-search response lands its results right after the assistant
message. -/
theorem C6_history_w :
    (∃ t0, initialThread envMax0 none (chatIdOf payloadFresh) = .ok t0 ∧
        (handle_model_call envMax0 chatScript (chatIdOf payloadFresh)
            ([Msg.system (system_prompt envMax0)]
              ++ [Msg.user payloadFresh.thread_prompt]) none).callLog.head?
          = some (t0 ++ [Msg.user payloadFresh.thread_prompt], tools envMax0)) ∧
    (∀ p ∈ (handle_model_call envMax0 chatScript (chatIdOf payloadFresh)
        ([Msg.system (system_prompt envMax0)]
          ++ [Msg.user payloadFresh.thread_prompt]) none).callLog,
      p.2 = tools envMax0 ∧
        ∃ ext, p.1 ++ ext
          = (handle_model_call envMax0 chatScript (chatIdOf payloadFresh)
              ([Msg.system (system_prompt envMax0)]
                ++ [Msg.user payloadFresh.thread_prompt]) none).thread) ∧
    (∀ chat_id out thread dbS2 thread2 evs b,
        processToolCalls envMax0 out.tool_calls
            (thread ++ [Msg.assistant out]) [] false = (thread2, evs, .ok b) →
        out.tool_calls ≠ [] →
        (runCycle envMax0 chat_id out thread dbS2).thread
          = thread ++ Msg.assistant out
              :: toolResultMsgs envMax0 out.tool_calls) :=
  C6_history envMax0 chatScript none payloadFresh
    (handle_model_call envMax0 chatScript (chatIdOf payloadFresh)
      ([Msg.system (system_prompt envMax0)]
        ++ [Msg.user payloadFresh.thread_prompt]) none) rfl

/-- C7: for a webhook request whose payload parses, `receive_email`
queues the email handling as a background task and returns the 204
no-content response; in the resulting trace the response event comes
first, before every model invocation and tool execution of the
background run. -/
theorem C7_webhook_ack (env : Env) (script : Nat → ModelMessage)
    (dbS : Option Db) (wenv : WebhookEnv) (secret sigHeader : Option String)
    (body : String) (payload : EmailPayload)
    (h : _validate_and_parse_email wenv secret sigHeader body = .ok payload) :
    receive_email wenv secret sigHeader body
      = .ok { status := 204, background := [payload] } ∧
    (serverTrace env script dbS wenv secret sigHeader body).head?
      = some (Event.respond 204) ∧
    (∀ i e,
        (serverTrace env script dbS wenv secret sigHeader body).get? i
          = some e →
        (e = Event.modelCall ∨ ∃ n, e = Event.toolExec n) → 1 ≤ i) := by
  have hre : receive_email wenv secret sigHeader body
      = .ok { status := 204, background := [payload] } := by
    rw [receive_email, h]
  refine ⟨hre, ?_, ?_⟩
  · rw [serverTrace, hre]
    simp
  · intro i e hi hwork
    cases i with
    | zero =>
        rw [serverTrace, hre] at hi
        simp only [List.get?] at hi
        rcases hwork with hw | ⟨n, hw⟩ <;> rw [hw] at hi <;> simp at hi
    | succ n => omega

/-- C7, witness: a concrete parsed delivery acknowledged with 204 ahead
of the background model call. -/
theorem C7_webhook_ack_w :
    receive_email wenvOk none none "raw-body"
      = .ok { status := 204, background := [payloadFresh] } ∧
    (serverTrace envMax0 chatScript none wenvOk none none "raw-body").head?
      = some (Event.respond 204) ∧
    (∀ i e,
        (serverTrace envMax0 chatScript none wenvOk none none "raw-body").get? i
          = some e →
        (e = Event.modelCall ∨ ∃ n, e = Event.toolExec n) → 1 ≤ i) :=
  C7_webhook_ack envMax0 chatScript none wenvOk none none "raw-body"
    payloadFresh rfl

end AgentServer
